import Mathlib

/-!
A shallow embedding of the publish & metadata-reconciliation subsystem of
`src/codeview.jsx` (the `CodeView` React component), together with proofs of
its specified properties.

Modelling conventions:
* The per-session component state (`files`, `loading`, `repoName`, `repoUrl`,
  `repoBranch` — five `useState` hooks in the source) is gathered into one
  structure `CodeViewState`.
* Optional / possibly-undefined JavaScript string values are `Option String`;
  JavaScript truthiness of such a value (`undefined`, `null` and `""` are
  falsy) is `jsTruthy`.
* Side effects (toasts, `setLoading` calls, the publish POST, the metadata
  PATCH issued by `saveRepoMetadata`, `window.open`) are recorded in source
  order as an `Effect` list returned alongside the new state.  `console.error`
  debug logging is not an observable effect and is not recorded.
* The outcome of the awaited network call (threw / non-JSON body / parsed
  JSON) is an explicit parameter, so each handler is a pure function from the
  pre-state and the response outcome to the post-state and the effect trace.
-/

/-- JavaScript truthiness of a possibly-absent string: `undefined` / `null`
and the empty string are falsy. -/
def jsTruthy : Option String → Bool
  | none => false
  | some s => !(s == "")

/-- The string value of a possibly-absent string (used after a `jsTruthy`
check has established it is present). -/
def jsGetD (o : Option String) : String := o.getD ""

/-- Split a character list at every occurrence of `sep`, keeping empty
pieces — the semantics of JavaScript `String.prototype.split` with a
one-character separator. -/
def splitChar (sep : Char) : List Char → List Char → List (List Char)
  | [], acc => [acc.reverse]
  | c :: cs, acc =>
    if c = sep then acc.reverse :: splitChar sep cs []
    else splitChar sep cs (c :: acc)

/-- JavaScript `s.split(sep)` for a one-character separator. -/
def jsSplit (sep : Char) (s : String) : List String :=
  (splitChar sep s.toList []).map fun l => String.mk l

/-- The components of a parsed URL that the source reads. -/
structure URLParts where
  scheme : String
  host : String
  pathname : String
deriving Repr, DecidableEq

/-- Scan for the first `"://"`: returns the characters before it and the
characters after it.  A `':'` not followed by `"//"`, or a `'/'` before any
`':'`, stops the scan with no result. -/
def findSchemeSplit : List Char → Option (List Char × List Char)
  | [] => none
  | ':' :: '/' :: '/' :: rest => some ([], rest)
  | ':' :: _ => none
  | '/' :: _ => none
  | c :: rest =>
    match findSchemeSplit rest with
    | some (p, r) => some (c :: p, r)
    | none => none

/-- A URL scheme is non-empty, starts with a letter, and contains only
letters, digits, `'+'`, `'-'`, `'.'`. -/
def validScheme : List Char → Bool
  | [] => false
  | c :: cs =>
    c.isAlpha && (c :: cs).all fun ch => ch.isAlphanum || ch == '+' || ch == '-' || ch == '.'

/-- Model of the browser `new URL(s)` constructor used by the source (the
source runs it inside `try`/`catch`; `none` models the constructor throwing).
Restricted to `scheme://host/path` URLs: the scheme must be followed by
`"://"` and a non-empty host, and the pathname is the part from the first
`'/'` after the host up to a `'?'` or `'#'` (defaulting to `"/"`), which is
the shape of every URL this component handles. -/
def parseURL (s : String) : Option URLParts :=
  match findSchemeSplit s.toList with
  | none => none
  | some (sch, rest) =>
    if validScheme sch then
      let host := rest.takeWhile fun c => !(c == '/') && !(c == '?') && !(c == '#')
      let after := rest.drop host.length
      if host.isEmpty then none
      else
        let path := after.takeWhile fun c => !(c == '?') && !(c == '#')
        some { scheme := String.mk sch, host := String.mk host,
               pathname := if path.isEmpty then "/" else String.mk path }
    else none

/-- `pathname.split("/").filter(Boolean).pop()` from the source: the last
non-empty `'/'`-separated segment of a pathname, if any. -/
def lastSegment (pathname : String) : Option String :=
  ((jsSplit '/' pathname).filter fun seg => seg ≠ "").getLast?

/-- The repo-name derivation the source applies to a URL: parse it and take
the last non-empty path segment. -/
def deriveNameFromUrl (u : String) : Option String :=
  match parseURL u with
  | none => none
  | some parts => lastSegment parts.pathname

/-- The component state: the five `useState` hooks of `CodeView`. -/
structure CodeViewState where
  files : List (String × String)
  loading : Bool
  repoName : String
  repoUrl : String
  repoBranch : String
deriving Repr, DecidableEq

/-- The initial hook values: `files` from `Lookup.DEFAULT_FILE ?? {}`
(parameterised here), `loading` false, empty repo name and url, branch
`"main"`. -/
def initState (defaultFiles : List (String × String)) : CodeViewState :=
  { files := defaultFiles, loading := false, repoName := "", repoUrl := "", repoBranch := "main" }

/-- The body of the publish POST request. -/
structure PublishRequest where
  repoName : String
  files : List (String × String)
  branch : String
deriving Repr, DecidableEq

/-- The body of the metadata PATCH; `none` fields are dropped by
`JSON.stringify` (the source passes `undefined` for an absent url). -/
structure MetaPatch where
  githubRepoName : Option String
  githubRepoUrl : Option String
  githubBranch : Option String
deriving Repr, DecidableEq

/-- The observable side effects of the component's handlers, in source
order. -/
inductive Effect where
  | toast (msg : String)
  | setBusy (b : Bool)
  | publishPost (req : PublishRequest)
  | metadataPatch (id : String) (body : MetaPatch)
  | openWindow (url : String)
deriving Repr, DecidableEq

/-- The toast messages of an effect trace, in order. -/
def toastsOf (effs : List Effect) : List String :=
  effs.filterMap fun e =>
    match e with
    | .toast m => some m
    | _ => none

/-- The metadata PATCHes of an effect trace, in order. -/
def patchesOf (effs : List Effect) : List (String × MetaPatch) :=
  effs.filterMap fun e =>
    match e with
    | .metadataPatch i b => some (i, b)
    | _ => none

/-- The publish POSTs of an effect trace, in order. -/
def postsOf (effs : List Effect) : List PublishRequest :=
  effs.filterMap fun e =>
    match e with
    | .publishPost r => some r
    | _ => none

/-- `saveRepoMetadata(meta)`: issues one PATCH of `meta` to the project
record when an id is available, and is a silent no-op otherwise
(`if (!id) return;`).  A thrown PATCH is swallowed, so the trace is the same
either way. -/
def saveRepoMetadata (id : Option String) (meta : MetaPatch) : List Effect :=
  if jsTruthy id then [Effect.metadataPatch (jsGetD id) meta] else []

/-- The parsed JSON body of a publish response, restricted to the fields the
source reads. -/
structure PublishResult where
  success : Bool
  repoUrl : Option String
  repoName : Option String
  error : Option String
deriving Repr, DecidableEq

/-- The outcome of `fetch("/api/github-publish", ...)` + `res.text()` +
`JSON.parse`: the call threw, the body was not JSON, or it parsed. -/
inductive PublishResponse where
  | threw
  | notJSON (raw : String)
  | parsed (data : PublishResult)
deriving Repr, DecidableEq

/-- Lines 112–128 of the source: on `success: true`, update local repo info.
Precedence in the source: `data.repoUrl` truthy → set url, try to derive the
name from the parsed URL's last non-empty path segment (`if (name)` guards
the empty-pathname case; the `catch` of an unparseable URL falls back to
`data.repoName` when present); else `data.repoName` truthy → set name; else
set name to the attempted `repoNameToUse`. -/
def applyPublishResult (st : CodeViewState) (data : PublishResult)
    (attemptedName : String) : CodeViewState :=
  if jsTruthy data.repoUrl then
    let u := jsGetD data.repoUrl
    let st1 := { st with repoUrl := u }
    match parseURL u with
    | some parts =>
      match lastSegment parts.pathname with
      | some n => { st1 with repoName := n }
      | none => st1
    | none =>
      if jsTruthy data.repoName then { st1 with repoName := jsGetD data.repoName } else st1
  else if jsTruthy data.repoName then { st with repoName := jsGetD data.repoName }
  else { st with repoName := attemptedName }

/-- `repoName || \x60ai-workspace-${id || Date.now()}\x60`: the name sent in
the publish request.  `now` stands for `Date.now()`. -/
def fallbackRepoName (id : Option String) (now : Nat) : String :=
  "ai-workspace-" ++ (if jsTruthy id then jsGetD id else toString now)

/-- The repo name chosen for a publish attempt: the stored name when
non-empty, else the generated fallback. -/
def repoNameToUse (st : CodeViewState) (id : Option String) (now : Nat) : String :=
  if st.repoName = "" then fallbackRepoName id now else st.repoName

/-- `publishToGitHub`, lines 82–145 of the source.  Note the `finally`
block wraps even the empty-files early return, so `setLoading(false)` runs
on every path.  The whole body is inside `try`/`catch`, so a thrown network
call produces the "Unexpected error" toast. -/
def publishToGitHub (id : Option String) (now : Nat) (st : CodeViewState)
    (resp : PublishResponse) : CodeViewState × List Effect :=
  if st.files.isEmpty then
    ({ st with loading := false },
     [Effect.toast "No files to publish to GitHub", Effect.setBusy false])
  else
    let name := repoNameToUse st id now
    let req : PublishRequest := { repoName := name, files := st.files, branch := st.repoBranch }
    let pre : List Effect := [Effect.setBusy true, Effect.publishPost req]
    match resp with
    | .threw =>
        ({ st with loading := false },
         pre ++ [Effect.toast "Unexpected error", Effect.setBusy false])
    | .notJSON _ =>
        ({ st with loading := false },
         pre ++ [Effect.toast "GitHub publish failed", Effect.setBusy false])
    | .parsed data =>
        if data.success then
          let st2 := applyPublishResult st data name
          let patchEffs := saveRepoMetadata id
            { githubRepoName := some name,
              githubRepoUrl := if jsTruthy data.repoUrl then some (jsGetD data.repoUrl) else none,
              githubBranch := some st.repoBranch }
          let openEffs :=
            if jsTruthy data.repoUrl then [Effect.openWindow (jsGetD data.repoUrl)] else []
          ({ st2 with loading := false },
           pre ++ patchEffs ++ [Effect.toast "Published successfully!"] ++ openEffs ++
             [Effect.setBusy false])
        else
          ({ st with loading := false },
           pre ++ [Effect.toast (if jsTruthy data.error then jsGetD data.error
                                 else "GitHub publish failed"),
                   Effect.setBusy false])

/-- The metadata fields a successful `GET /api/projects/:id` load may
carry. -/
structure LoadedMeta where
  githubRepoUrl : Option String
  githubRepoName : Option String
  githubBranch : Option String
deriving Repr, DecidableEq

/-- The outcome of the metadata load fetch: it threw (also covers a thrown
`res.json()`), returned a non-ok status, or delivered parsed data. -/
inductive LoadResponse where
  | threw
  | notOk
  | ok (data : LoadedMeta)
deriving Repr, DecidableEq

/-- `loadRepoInfo`, lines 37–63 of the source (run by the effect hook only
when an id is present).  Failures are silent; loaded url takes precedence,
with the name derived from it when parseable (falling back to the loaded
name on an unparseable url); a loaded branch overrides the default. -/
def loadRepoInfo (st : CodeViewState) (resp : LoadResponse) : CodeViewState :=
  match resp with
  | .threw => st
  | .notOk => st
  | .ok data =>
    let st1 :=
      if jsTruthy data.githubRepoUrl then
        let u := jsGetD data.githubRepoUrl
        let stU := { st with repoUrl := u }
        match parseURL u with
        | some parts =>
          match lastSegment parts.pathname with
          | some n => { stU with repoName := n }
          | none => stU
        | none =>
          if jsTruthy data.githubRepoName then { stU with repoName := jsGetD data.githubRepoName }
          else stU
      else if jsTruthy data.githubRepoName then { st with repoName := jsGetD data.githubRepoName }
      else st
    if jsTruthy data.githubBranch then { st1 with repoBranch := jsGetD data.githubBranch } else st1

/-- `changeBranch`, lines 162–169: `input` is what `window.prompt` returned
(`none` = cancelled).  Falsy input is a no-op; otherwise set the branch,
fire the best-effort PATCH, toast the new value. -/
def changeBranch (id : Option String) (st : CodeViewState) (input : Option String) :
    CodeViewState × List Effect :=
  if jsTruthy input then
    let b := jsGetD input
    ({ st with repoBranch := b },
     saveRepoMetadata id { githubRepoName := none, githubRepoUrl := none, githubBranch := some b }
       ++ [Effect.toast ("Branch set to " ++ b)])
  else (st, [])

/-- The `useEffect` on `projectFiles`, lines 27–31: replace the file set
only when the incoming snapshot is present and non-empty. -/
def replaceFiles (st : CodeViewState) (snapshot : Option (List (String × String))) :
    CodeViewState :=
  match snapshot with
  | none => st
  | some fs => if fs.isEmpty then st else { st with files := fs }

/-- A non-empty list is not `isEmpty`. -/
theorem isEmpty_false_of_ne_nil {α : Type} {l : List α} (h : l ≠ []) : l.isEmpty = false := by
  cases l with
  | nil => exact absurd rfl h
  | cons a t => rfl

/-- C2: for every publish attempt on a non-empty file set, the busy flag is
cleared on every response path — success, application failure, malformed
body, or a thrown network call — so the busy indicator never remains
stuck. -/
theorem publish_clears_busy (id : Option String) (now : Nat) (st : CodeViewState)
    (resp : PublishResponse) (h : st.files ≠ []) :
    (publishToGitHub id now st resp).1.loading = false := by
  cases resp with
  | threw => simp [publishToGitHub, isEmpty_false_of_ne_nil h]
  | notJSON raw => simp [publishToGitHub, isEmpty_false_of_ne_nil h]
  | parsed data =>
    by_cases hs : data.success = true
    · simp [publishToGitHub, isEmpty_false_of_ne_nil h, hs]
    · simp [publishToGitHub, isEmpty_false_of_ne_nil h, hs]

theorem publish_clears_busy_witness :
    ([(("App.js" : String), ("..." : String))] ≠ ([] : List (String × String))) ∧
    (publishToGitHub (some "p1") 0
      { files := [("App.js", "...")], loading := true, repoName := "", repoUrl := "",
        repoBranch := "main" } PublishResponse.threw).1.loading = false :=
  ⟨by decide,
   publish_clears_busy (some "p1") 0
     { files := [("App.js", "...")], loading := true, repoName := "", repoUrl := "",
       repoBranch := "main" } PublishResponse.threw (by decide)⟩

/-- C5: for every publish attempt on a non-empty file set whose response
body is not JSON, the resulting state is the old one with only the busy
flag cleared (repo metadata untouched), exactly one toast
"GitHub publish failed" is emitted, and no metadata PATCH is issued. -/
theorem malformed_response_behavior (id : Option String) (now : Nat) (st : CodeViewState)
    (raw : String) (h : st.files ≠ []) :
    (publishToGitHub id now st (PublishResponse.notJSON raw)).1 = { st with loading := false } ∧
    toastsOf (publishToGitHub id now st (PublishResponse.notJSON raw)).2 =
      ["GitHub publish failed"] ∧
    patchesOf (publishToGitHub id now st (PublishResponse.notJSON raw)).2 = [] := by
  simp [publishToGitHub, isEmpty_false_of_ne_nil h, toastsOf, patchesOf]

theorem malformed_response_behavior_witness :
    (publishToGitHub (some "p1") 0
      { files := [("App.js", "...")], loading := false, repoName := "n", repoUrl := "u",
        repoBranch := "main" } (PublishResponse.notJSON "<html>")).1 =
      { files := [("App.js", "...")], loading := false, repoName := "n", repoUrl := "u",
        repoBranch := "main" } ∧
    toastsOf (publishToGitHub (some "p1") 0
      { files := [("App.js", "...")], loading := false, repoName := "n", repoUrl := "u",
        repoBranch := "main" } (PublishResponse.notJSON "<html>")).2 =
      ["GitHub publish failed"] := by
  have h := malformed_response_behavior (some "p1") 0
    { files := [("App.js", "...")], loading := false, repoName := "n", repoUrl := "u",
      repoBranch := "main" } "<html>" (by decide)
  exact ⟨h.1, h.2.1⟩

/-- C6: for every publish trigger on an empty file set, the state is
unchanged apart from the (already cleared) busy flag, the only effects are
one "nothing to publish" toast and the terminal `setLoading(false)`: zero
network calls, and the busy flag is never set. -/
theorem empty_files_noop (id : Option String) (now : Nat) (st : CodeViewState)
    (resp : PublishResponse) (h : st.files = []) :
    (publishToGitHub id now st resp).1 = { st with loading := false } ∧
    (publishToGitHub id now st resp).2 =
      [Effect.toast "No files to publish to GitHub", Effect.setBusy false] ∧
    toastsOf (publishToGitHub id now st resp).2 = ["No files to publish to GitHub"] ∧
    postsOf (publishToGitHub id now st resp).2 = [] ∧
    patchesOf (publishToGitHub id now st resp).2 = [] ∧
    Effect.setBusy true ∉ (publishToGitHub id now st resp).2 := by
  have he : st.files.isEmpty = true := by rw [h]; rfl
  simp [publishToGitHub, he, toastsOf, postsOf, patchesOf]

theorem empty_files_noop_witness :
    (publishToGitHub none 7
      { files := [], loading := false, repoName := "", repoUrl := "", repoBranch := "main" }
      PublishResponse.threw).2 =
      [Effect.toast "No files to publish to GitHub", Effect.setBusy false] :=
  (empty_files_noop none 7
    { files := [], loading := false, repoName := "", repoUrl := "", repoBranch := "main" }
    PublishResponse.threw rfl).2.1

/-- C7: the workspace file set is only ever replaced by a present,
non-empty incoming snapshot: an absent or empty update leaves the state
unchanged, so a workspace holding files never transitions to holding no
files. -/
theorem replaceFiles_guard (st : CodeViewState) (snapshot : Option (List (String × String))) :
    replaceFiles st none = st ∧
    replaceFiles st (some []) = st ∧
    (∀ fs, fs ≠ [] → replaceFiles st (some fs) = { st with files := fs }) ∧
    (st.files ≠ [] → (replaceFiles st snapshot).files ≠ []) := by
  refine ⟨rfl, rfl, ?_, ?_⟩
  · intro fs hfs
    simp [replaceFiles, isEmpty_false_of_ne_nil hfs]
  · intro hf
    cases snapshot with
    | none => exact hf
    | some fs =>
      cases fs with
      | nil => exact hf
      | cons a t => simp [replaceFiles]

theorem replaceFiles_guard_witness :
    (replaceFiles
      { files := [("App.js", "...")], loading := false, repoName := "", repoUrl := "",
        repoBranch := "main" } (some [])).files ≠ [] :=
  (replaceFiles_guard
    { files := [("App.js", "...")], loading := false, repoName := "", repoUrl := "",
      repoBranch := "main" } (some [])).2.2.2 (by decide)

/-- `applyPublishResult` never touches the branch. -/
theorem applyPublishResult_repoBranch (st : CodeViewState) (data : PublishResult)
    (attempted : String) :
    (applyPublishResult st data attempted).repoBranch = st.repoBranch := by
  unfold applyPublishResult
  by_cases hu : jsTruthy data.repoUrl
  · simp only [hu, if_true]
    cases hp : parseURL (jsGetD data.repoUrl) with
    | none => by_cases hn : jsTruthy data.repoName <;> simp [hp, hn]
    | some parts => cases hl : lastSegment parts.pathname <;> simp [hp, hl]
  · by_cases hn : jsTruthy data.repoName <;> simp [hu, hn]

/-- C3: in `applyPublishResult(result, attemptedName)` exactly one of three
paths executes, with precedence: a present `repoUrl` sets the url and the
name is derived from it (whenever the derivation yields a segment); else a
present `repoName` sets the name with the url unchanged; else the name is
set to the attempted name, url unchanged.  The branch is untouched in all
three. -/
theorem applyPublishResult_precedence (st : CodeViewState) (data : PublishResult)
    (attempted : String) :
    (jsTruthy data.repoUrl = true →
       (applyPublishResult st data attempted).repoUrl = jsGetD data.repoUrl ∧
       (∀ n, deriveNameFromUrl (jsGetD data.repoUrl) = some n →
          (applyPublishResult st data attempted).repoName = n)) ∧
    (jsTruthy data.repoUrl = false → jsTruthy data.repoName = true →
       (applyPublishResult st data attempted).repoName = jsGetD data.repoName ∧
       (applyPublishResult st data attempted).repoUrl = st.repoUrl) ∧
    (jsTruthy data.repoUrl = false → jsTruthy data.repoName = false →
       (applyPublishResult st data attempted).repoName = attempted ∧
       (applyPublishResult st data attempted).repoUrl = st.repoUrl) ∧
    (applyPublishResult st data attempted).repoBranch = st.repoBranch := by
  refine ⟨?_, ?_, ?_, applyPublishResult_repoBranch st data attempted⟩
  · intro hu
    constructor
    · unfold applyPublishResult
      simp only [hu, if_true]
      cases hp : parseURL (jsGetD data.repoUrl) with
      | none => by_cases hn : jsTruthy data.repoName <;> simp [hp, hn]
      | some parts => cases hl : lastSegment parts.pathname <;> simp [hp, hl]
    · intro n hn
      unfold deriveNameFromUrl at hn
      unfold applyPublishResult
      simp only [hu, if_true]
      cases hp : parseURL (jsGetD data.repoUrl) with
      | none => rw [hp] at hn; simp at hn
      | some parts =>
        rw [hp] at hn
        simp only [] at hn
        simp [hp, hn]
  · intro hu hn
    simp [applyPublishResult, hu, hn]
  · intro hu hn
    simp [applyPublishResult, hu, hn]

theorem applyPublishResult_precedence_witness :
    (applyPublishResult
      { files := [("App.js", "...")], loading := false, repoName := "old", repoUrl := "oldu",
        repoBranch := "main" }
      { success := true, repoUrl := some "https://host/acme/app", repoName := some "given",
        error := none } "attempted").repoName = "app" :=
  ((applyPublishResult_precedence
    { files := [("App.js", "...")], loading := false, repoName := "old", repoUrl := "oldu",
      repoBranch := "main" }
    { success := true, repoUrl := some "https://host/acme/app", repoName := some "given",
      error := none } "attempted").1 (by decide)).2 "app" (by decide)

/-- C4: in both the metadata-load path and the publish-result path, a
well-formed url yields the name derived as its last non-empty path segment
(overriding any stored name), while a malformed url leaves the name at the
explicitly provided value when one is present, else at the previously
stored value. -/
theorem name_derivation_rule (u : String) (st : CodeViewState) (pr : PublishResult)
    (lm : LoadedMeta) (attempted : String) (hpr : pr.repoUrl = some u)
    (hlm : lm.githubRepoUrl = some u) (hu : u ≠ "") :
    (∀ parts, parseURL u = some parts → deriveNameFromUrl u = lastSegment parts.pathname) ∧
    (∀ n, deriveNameFromUrl u = some n →
       (applyPublishResult st pr attempted).repoName = n ∧
       (loadRepoInfo st (LoadResponse.ok lm)).repoName = n) ∧
    (parseURL u = none →
       (applyPublishResult st pr attempted).repoName =
         (if jsTruthy pr.repoName then jsGetD pr.repoName else st.repoName) ∧
       (loadRepoInfo st (LoadResponse.ok lm)).repoName =
         (if jsTruthy lm.githubRepoName then jsGetD lm.githubRepoName else st.repoName)) := by
  have htr : jsTruthy (some u) = true := by simp [jsTruthy, hu]
  have hget : jsGetD (some u) = u := rfl
  refine ⟨?_, ?_, ?_⟩
  · intro parts hp
    unfold deriveNameFromUrl
    rw [hp]
  · intro n hn
    unfold deriveNameFromUrl at hn
    cases hp : parseURL u with
    | none => rw [hp] at hn; simp at hn
    | some parts =>
      rw [hp] at hn
      simp only [] at hn
      constructor
      · unfold applyPublishResult
        rw [hpr]
        simp [htr, hget, hp, hn]
      · simp only [loadRepoInfo]
        rw [hlm]
        simp only [htr, if_true, hget, hp, hn]
        by_cases hb : jsTruthy lm.githubBranch <;> simp [hb]
  · intro hp
    constructor
    · unfold applyPublishResult
      rw [hpr]
      simp only [htr, if_true, hget, hp]
      by_cases hn : jsTruthy pr.repoName <;> simp [hn]
    · simp only [loadRepoInfo]
      rw [hlm]
      simp only [htr, if_true, hget, hp]
      by_cases hn : jsTruthy lm.githubRepoName <;>
        by_cases hb : jsTruthy lm.githubBranch <;> simp [hn, hb]

theorem name_derivation_rule_witness :
    (deriveNameFromUrl "https://host/acme/app" = some "app") ∧
    (applyPublishResult
      { files := [], loading := false, repoName := "stored", repoUrl := "", repoBranch := "main" }
      { success := true, repoUrl := some "https://host/acme/app", repoName := none, error := none }
      "att").repoName = "app" ∧
    (loadRepoInfo
      { files := [], loading := false, repoName := "stored", repoUrl := "", repoBranch := "main" }
      (LoadResponse.ok
        { githubRepoUrl := some "not a url", githubRepoName := some "provided",
          githubBranch := none })).repoName = "provided" := by
  refine ⟨by decide, ?_, ?_⟩
  · exact ((name_derivation_rule "https://host/acme/app"
      { files := [], loading := false, repoName := "stored", repoUrl := "", repoBranch := "main" }
      { success := true, repoUrl := some "https://host/acme/app", repoName := none, error := none }
      { githubRepoUrl := some "https://host/acme/app", githubRepoName := none,
        githubBranch := none } "att" rfl rfl (by decide)).2.1 "app" (by decide)).1
  · have h := ((name_derivation_rule "not a url"
      { files := [], loading := false, repoName := "stored", repoUrl := "", repoBranch := "main" }
      { success := true, repoUrl := some "not a url", repoName := none, error := none }
      { githubRepoUrl := some "not a url", githubRepoName := some "provided",
        githubBranch := none } "att" rfl rfl (by decide)).2.2 (by decide)).2
    rw [h]
    decide

/-- `saveRepoMetadata` issues no publish POST. -/
theorem postsOf_saveRepoMetadata (id : Option String) (meta : MetaPatch) :
    postsOf (saveRepoMetadata id meta) = [] := by
  unfold saveRepoMetadata
  by_cases h : jsTruthy id <;> simp [h, postsOf]

/-- The PATCH trace of `saveRepoMetadata`: one PATCH when an id is
available, none otherwise. -/
theorem patchesOf_saveRepoMetadata (id : Option String) (meta : MetaPatch) :
    patchesOf (saveRepoMetadata id meta) =
      if jsTruthy id then [(jsGetD id, meta)] else [] := by
  unfold saveRepoMetadata
  by_cases h : jsTruthy id <;> simp [h, patchesOf]

/-- C8: every publish attempt on a non-empty file set POSTs exactly one
request whose repo name is the stored name when non-empty, else
`"ai-workspace-" ++ id` when an identifier is available, else
`"ai-workspace-" ++ timestamp`. -/
theorem repo_name_selection (id : Option String) (now : Nat) (st : CodeViewState)
    (resp : PublishResponse) (h : st.files ≠ []) :
    postsOf (publishToGitHub id now st resp).2 =
      [{ repoName := repoNameToUse st id now, files := st.files, branch := st.repoBranch }] ∧
    (st.repoName ≠ "" → repoNameToUse st id now = st.repoName) ∧
    (st.repoName = "" → jsTruthy id = true →
       repoNameToUse st id now = "ai-workspace-" ++ jsGetD id) ∧
    (st.repoName = "" → jsTruthy id = false →
       repoNameToUse st id now = "ai-workspace-" ++ toString now) := by
  refine ⟨?_, ?_, ?_, ?_⟩
  · cases resp with
    | threw => simp [publishToGitHub, isEmpty_false_of_ne_nil h, postsOf]
    | notJSON raw => simp [publishToGitHub, isEmpty_false_of_ne_nil h, postsOf]
    | parsed data =>
      by_cases hs : data.success = true
      · by_cases hru : jsTruthy data.repoUrl <;> by_cases hid : jsTruthy id <;>
          simp [publishToGitHub, isEmpty_false_of_ne_nil h, hs, hru, hid, postsOf,
            saveRepoMetadata, List.filterMap_append]
      · simp [publishToGitHub, isEmpty_false_of_ne_nil h, hs, postsOf]
  · intro hn
    simp [repoNameToUse, hn]
  · intro hn hid
    simp [repoNameToUse, hn, fallbackRepoName, hid]
  · intro hn hid
    simp [repoNameToUse, hn, fallbackRepoName, hid]

theorem repo_name_selection_witness :
    postsOf (publishToGitHub (some "p1") 0
      { files := [("App.js", "...")], loading := false, repoName := "", repoUrl := "",
        repoBranch := "main" } PublishResponse.threw).2 =
      [{ repoName := "ai-workspace-p1", files := [("App.js", "...")], branch := "main" }] := by
  have h := repo_name_selection (some "p1") 0
    { files := [("App.js", "...")], loading := false, repoName := "", repoUrl := "",
      repoBranch := "main" } PublishResponse.threw (by decide)
  rw [h.1]
  decide

/-- C9: the branch starts at `"main"` and is preserved by publishing and by
a load that carries no branch; a falsy (cancelled or empty) branch-change
input is a complete no-op, while a non-empty input sets the branch, fires
the best-effort persistence write, and toasts the new value once. -/
theorem branch_flow (id input : Option String) (st : CodeViewState) (d : LoadedMeta)
    (resp : PublishResponse) (now : Nat) :
    (∀ dfl, (initState dfl).repoBranch = "main") ∧
    ((publishToGitHub id now st resp).1.repoBranch = st.repoBranch) ∧
    (jsTruthy d.githubBranch = false →
       (loadRepoInfo st (LoadResponse.ok d)).repoBranch = st.repoBranch) ∧
    (jsTruthy input = false → changeBranch id st input = (st, [])) ∧
    (∀ b, b ≠ "" →
       (changeBranch id st (some b)).1 = { st with repoBranch := b } ∧
       (changeBranch id st (some b)).2 =
         saveRepoMetadata id
           { githubRepoName := none, githubRepoUrl := none, githubBranch := some b } ++
           [Effect.toast ("Branch set to " ++ b)] ∧
       toastsOf (changeBranch id st (some b)).2 = ["Branch set to " ++ b]) := by
  refine ⟨fun dfl => rfl, ?_, ?_, ?_, ?_⟩
  · by_cases hf : st.files.isEmpty
    · simp [publishToGitHub, hf]
    · cases resp with
      | threw => simp [publishToGitHub, hf]
      | notJSON raw => simp [publishToGitHub, hf]
      | parsed data =>
        by_cases hs : data.success = true
        · simp [publishToGitHub, hf, hs, applyPublishResult_repoBranch]
        · simp [publishToGitHub, hf, hs]
  · intro hb
    simp only [loadRepoInfo]
    simp only [hb, if_false, Bool.false_eq_true]
    by_cases hu : jsTruthy d.githubRepoUrl
    · simp only [hu, if_true]
      cases hp : parseURL (jsGetD d.githubRepoUrl) with
      | none => by_cases hn : jsTruthy d.githubRepoName <;> simp [hp, hn]
      | some parts => cases hl : lastSegment parts.pathname <;> simp [hp, hl]
    · by_cases hn : jsTruthy d.githubRepoName <;> simp [hu, hn]
  · intro hi
    simp [changeBranch, hi]
  · intro b hb
    have htr : jsTruthy (some b) = true := by simp [jsTruthy, hb]
    refine ⟨by simp [changeBranch, htr]; rfl, by simp [changeBranch, htr]; rfl, ?_⟩
    simp only [changeBranch, htr, if_true]
    unfold saveRepoMetadata
    by_cases hid : jsTruthy id <;> simp [hid, toastsOf, jsGetD]

theorem branch_flow_witness :
    (changeBranch (some "p1")
      { files := [], loading := false, repoName := "", repoUrl := "", repoBranch := "main" }
      (some "dev")).1.repoBranch = "dev" := by
  have h := ((branch_flow (some "p1") (some "dev")
    { files := [], loading := false, repoName := "", repoUrl := "", repoBranch := "main" }
    { githubRepoUrl := none, githubRepoName := none, githubBranch := none }
    PublishResponse.threw 0).2.2.2.2 "dev" (by decide)).1
  rw [h]

/-- C10: without a project identifier the persistence write is a silent
no-op — `saveRepoMetadata` issues no request — so a successful publish with
no id still updates the local repo metadata and toasts success, but fires
no metadata PATCH. -/
theorem no_id_persistence_noop (id : Option String) (meta : MetaPatch) (now : Nat)
    (st : CodeViewState) (data : PublishResult) :
    (jsTruthy id = false → saveRepoMetadata id meta = []) ∧
    (st.files ≠ [] → data.success = true →
       patchesOf (publishToGitHub none now st (PublishResponse.parsed data)).2 = [] ∧
       (publishToGitHub none now st (PublishResponse.parsed data)).1 =
         { applyPublishResult st data (repoNameToUse st none now) with loading := false } ∧
       Effect.toast "Published successfully!" ∈
         (publishToGitHub none now st (PublishResponse.parsed data)).2) := by
  constructor
  · intro hid
    simp [saveRepoMetadata, hid]
  · intro h hs
    refine ⟨?_, ?_, ?_⟩
    · by_cases hru : jsTruthy data.repoUrl <;>
        simp [publishToGitHub, isEmpty_false_of_ne_nil h, hs, hru, patchesOf,
          patchesOf_saveRepoMetadata, saveRepoMetadata, jsTruthy, List.filterMap_append]
    · by_cases hru : jsTruthy data.repoUrl <;>
        simp [publishToGitHub, isEmpty_false_of_ne_nil h, hs, hru]
    · by_cases hru : jsTruthy data.repoUrl <;>
        simp [publishToGitHub, isEmpty_false_of_ne_nil h, hs, hru, saveRepoMetadata, jsTruthy]

theorem no_id_persistence_noop_witness :
    patchesOf (publishToGitHub none 7
      { files := [("App.js", "...")], loading := false, repoName := "", repoUrl := "",
        repoBranch := "main" }
      (PublishResponse.parsed
        { success := true, repoUrl := some "https://github.com/acme/app", repoName := none,
          error := none })).2 = [] :=
  ((no_id_persistence_noop none
    { githubRepoName := none, githubRepoUrl := none, githubBranch := none } 7
    { files := [("App.js", "...")], loading := false, repoName := "", repoUrl := "",
      repoBranch := "main" }
    { success := true, repoUrl := some "https://github.com/acme/app", repoName := none,
      error := none }).2 (by decide) rfl).1

/-- C1 as stated is false: with no stored name, id `"p1"` (so the attempted
name is `"ai-workspace-p1"`) and a successful response whose `repoUrl` is
`"https://github.com/acme/other"`, reconciliation sets the store's name to
`"other"`, yet the PATCH body carries `githubRepoName = "ai-workspace-p1"`
— the attempted name, not the store's name after reconciliation. -/
theorem patch_name_differs_from_reconciled :
    (publishToGitHub (some "p1") 0
      { files := [("App.js", "...")], loading := false, repoName := "", repoUrl := "",
        repoBranch := "main" }
      (PublishResponse.parsed
        { success := true, repoUrl := some "https://github.com/acme/other",
          repoName := none, error := none })).1.repoName = "other" ∧
    patchesOf (publishToGitHub (some "p1") 0
      { files := [("App.js", "...")], loading := false, repoName := "", repoUrl := "",
        repoBranch := "main" }
      (PublishResponse.parsed
        { success := true, repoUrl := some "https://github.com/acme/other",
          repoName := none, error := none })).2 =
      [("p1", { githubRepoName := some "ai-workspace-p1",
                githubRepoUrl := some "https://github.com/acme/other",
                githubBranch := some "main" })] ∧
    ("ai-workspace-p1" : String) ≠ "other" := by
  decide

/-- C1 (amended): on a successful publish of a non-empty file set with a
project identifier available, the coordinator invokes the persistence
client with githubRepoName = the attempted `repoNameToUse` (not the
post-reconciliation store name), githubRepoUrl = the response's repoUrl when
present (omitted otherwise), and githubBranch = the current branch; in
Scenario B these coincide with the reconciled store values. -/
theorem patch_body_uses_attempted_name (id : Option String) (now : Nat) (st : CodeViewState)
    (data : PublishResult) (h : st.files ≠ []) (hs : data.success = true)
    (hid : jsTruthy id = true) :
    patchesOf (publishToGitHub id now st (PublishResponse.parsed data)).2 =
      [(jsGetD id,
        { githubRepoName := some (repoNameToUse st id now),
          githubRepoUrl := if jsTruthy data.repoUrl then some (jsGetD data.repoUrl) else none,
          githubBranch := some st.repoBranch })] ∧
    Effect.toast "Published successfully!" ∈
      (publishToGitHub id now st (PublishResponse.parsed data)).2 := by
  constructor
  · by_cases hru : jsTruthy data.repoUrl <;>
      simp [publishToGitHub, isEmpty_false_of_ne_nil h, hs, hru, hid, patchesOf,
        saveRepoMetadata, List.filterMap_append]
  · by_cases hru : jsTruthy data.repoUrl <;>
      simp [publishToGitHub, isEmpty_false_of_ne_nil h, hs, hru, hid, saveRepoMetadata]

theorem patch_body_uses_attempted_name_witness :
    patchesOf (publishToGitHub (some "p1") 0
      { files := [("App.js", "...")], loading := false, repoName := "", repoUrl := "",
        repoBranch := "main" }
      (PublishResponse.parsed
        { success := true, repoUrl := some "https://github.com/acme/ai-workspace-p1",
          repoName := none, error := none })).2 =
      [("p1", { githubRepoName := some "ai-workspace-p1",
                githubRepoUrl := some "https://github.com/acme/ai-workspace-p1",
                githubBranch := some "main" })] ∧
    (publishToGitHub (some "p1") 0
      { files := [("App.js", "...")], loading := false, repoName := "", repoUrl := "",
        repoBranch := "main" }
      (PublishResponse.parsed
        { success := true, repoUrl := some "https://github.com/acme/ai-workspace-p1",
          repoName := none, error := none })).1.repoName = "ai-workspace-p1" := by
  have h := patch_body_uses_attempted_name (some "p1") 0
    { files := [("App.js", "...")], loading := false, repoName := "", repoUrl := "",
      repoBranch := "main" }
    { success := true, repoUrl := some "https://github.com/acme/ai-workspace-p1",
      repoName := none, error := none } (by decide) rfl rfl
  refine ⟨?_, by decide⟩
  rw [h.1]
  decide
